import Mathlib

/-!
Verification of the uranium-236 regridding notebook
(`src/arctic-isotopes/uranium-236.ipynb`) and of the thin data-handling
utility layer it calls into (`load_grid_vertex`, `standardize_variable_names`,
`regrid_to_dggs`).  The utility module itself is not part of the source tree,
so its operations are modelled from the specification; the notebook-level
computations (grid level, cell count, squeeze-before-save) are embedded
directly from the notebook cells.
-/

namespace Uranium236

/-! ## Notebook cell 27: DGGS grid parameters

`healpy_grid_level = int(np.log2(nside))` and
`number_of_cells = 12 * nside**2`.  For `nside` an exact power of two,
`np.log2` returns the exact integer exponent, so truncation by `int`
is the identity; `Nat.log2` agrees with it on these inputs. -/

/-- Floor base-two logarithm, written with explicit fuel so that it reduces
in the kernel; `log2Aux fuel n` equals `⌊log2 n⌋` whenever `n ≤ fuel`. -/
def log2Aux (fuel n : Nat) : Nat :=
  match fuel with
  | 0 => 0
  | fuel + 1 => if 2 ≤ n then log2Aux fuel (n / 2) + 1 else 0

def healpy_grid_level (nside : Nat) : Nat :=
  log2Aux nside nside

def number_of_cells (nside : Nat) : Nat :=
  12 * nside ^ 2

/-- The notebook's choice `nside = 32`. -/
def nside_notebook : Nat := 32

/-- The notebook's choice `min_vertices = 1`. -/
def min_vertices_notebook : Nat := 1

theorem log2Aux_pow_two (k : Nat) :
    ∀ fuel, 2 ^ k ≤ fuel → log2Aux fuel (2 ^ k) = k := by
  induction k with
  | zero =>
    intro fuel h
    obtain ⟨f, rfl⟩ : ∃ f, fuel = f + 1 := ⟨fuel - 1, by omega⟩
    simp [log2Aux]
  | succ k ih =>
    intro fuel h
    have hone : 1 ≤ 2 ^ k := Nat.one_le_two_pow
    have hsucc : 2 ^ (k + 1) = 2 ^ k * 2 := Nat.pow_succ 2 k
    have h2 : 2 ≤ 2 ^ (k + 1) := by omega
    obtain ⟨f, rfl⟩ : ∃ f, fuel = f + 1 := ⟨fuel - 1, by omega⟩
    have hdiv : 2 ^ (k + 1) / 2 = 2 ^ k := by
      rw [hsucc]
      exact Nat.mul_div_cancel _ (by norm_num)
    simp only [log2Aux, if_pos h2, hdiv]
    rw [ih f (by omega)]

/-- `healpy_grid_level` inverts powers of two. -/
theorem healpy_grid_level_pow_two (k : Nat) : healpy_grid_level (2 ^ k) = k :=
  log2Aux_pow_two k (2 ^ k) le_rfl

/-! ## Notebook cells 29 and 32: squeeze before serialization

`ds_regridded = regridded.U236GF.compute().squeeze()` followed by
`ds_regridded.to_zarr(save_location, mode="w")`.  `squeeze` drops every
dimension of size one; `to_zarr` writes `ds_regridded` as is, so the
dimensions written to the store are exactly the squeezed ones. -/

/-- xarray's `squeeze`: drop every dimension of size one from the
dimension list (names paired with sizes). -/
def squeeze (dims : List (String × Nat)) : List (String × Nat) :=
  dims.filter (fun p => p.2 != 1)

/-- The dimensions of `ds_regridded` in notebook cell 29: the regridded
field with `squeeze` applied. -/
def ds_regridded_dims (regridded_dims : List (String × Nat)) : List (String × Nat) :=
  squeeze regridded_dims

/-- The dimensions of the dataset written by `to_zarr` in notebook cell 32:
`to_zarr` serializes `ds_regridded` unchanged. -/
def zarr_written_dims (regridded_dims : List (String × Nat)) : List (String × Nat) :=
  ds_regridded_dims regridded_dims

/-! ## Data model: LabeledArrayDataset -/

/-- A labeled variable of a dataset: its name, the names of its dimensions,
and its metadata attributes (key/value pairs such as `standard_name`). -/
structure DataVar where
  name : String
  dims : List String
  attrs : List (String × String)
deriving DecidableEq, Repr

/-- A labeled array dataset: named dimensions with sizes, data variables and
coordinate variables. -/
structure LabeledArrayDataset where
  dims : List (String × Nat)
  vars : List DataVar
  coords : List DataVar
deriving DecidableEq, Repr

/-! ## VariableStandardizer (modelled from the spec)

`standardize_variable_names` lives in the `data_handling` module, which is
not in the source tree; it is modelled from the specification: variable and
dimension names are remapped to a canonical vocabulary (unifying
"lon"/"longitude" and "lat"/"latitude"), `standard_name` attributes are set
for the canonical coordinates, and the call fails with `MissingFieldError`
if an expected coordinate is absent with no synonym matching. -/

inductive StandardizeError where
  | MissingFieldError
deriving DecidableEq, Repr

/-- Modelled from the spec: the fixed internal name-mapping table, sending
each recognized synonym to its canonical name and leaving others alone. -/
def canonicalName (s : String) : String :=
  if s = "lon" ∨ s = "longitude" then "longitude"
  else if s = "lat" ∨ s = "latitude" then "latitude"
  else s

/-- Remap one variable: canonicalize its name and dimension names, and set
its `standard_name` attribute (replacing any previous value) when it is a
canonical coordinate. -/
def renameVar (v : DataVar) : DataVar :=
  { name := canonicalName v.name
    dims := v.dims.map canonicalName
    attrs :=
      if canonicalName v.name = "longitude" ∨ canonicalName v.name = "latitude" then
        ("standard_name", canonicalName v.name) ::
          v.attrs.filter (fun p => p.1 != "standard_name")
      else v.attrs }

/-- Modelled from the spec: `standardize_variable_names` returns a new dataset
with dimension, variable and coordinate names remapped to the canonical
vocabulary and `standard_name` attributes set; it fails with
`MissingFieldError` when the canonical `latitude`/`longitude` coordinates are
absent after remapping. -/
def standardize_variable_names (ds : LabeledArrayDataset) :
    Except StandardizeError LabeledArrayDataset :=
  if ((ds.coords.map renameVar).map DataVar.name).contains "latitude" &&
      ((ds.coords.map renameVar).map DataVar.name).contains "longitude" then
    .ok { dims := ds.dims.map (fun p => (canonicalName p.1, p.2))
          vars := ds.vars.map renameVar
          coords := ds.coords.map renameVar }
  else
    .error .MissingFieldError

theorem canonicalName_idem (s : String) : canonicalName (canonicalName s) = canonicalName s := by
  by_cases h1 : s = "lon" ∨ s = "longitude"
  · simp [canonicalName, h1]
  · by_cases h2 : s = "lat" ∨ s = "latitude"
    · simp [canonicalName, h1, h2]
    · simp [canonicalName, h1, h2]

theorem renameVar_idem (v : DataVar) : renameVar (renameVar v) = renameVar v := by
  have hmap : (v.dims.map canonicalName).map canonicalName = v.dims.map canonicalName := by
    rw [List.map_map]
    apply List.map_congr_left
    intro a _
    exact canonicalName_idem a
  by_cases h : canonicalName v.name = "longitude" ∨ canonicalName v.name = "latitude"
  · simp [renameVar, canonicalName_idem, hmap, h, List.filter_filter]
  · simp [renameVar, canonicalName_idem, hmap, h]

theorem dims_map_canonical_idem (l : List (String × Nat)) :
    (l.map (fun p => (canonicalName p.1, p.2))).map (fun p => (canonicalName p.1, p.2)) =
      l.map (fun p => (canonicalName p.1, p.2)) := by
  rw [List.map_map]
  apply List.map_congr_left
  intro a _
  simp [canonicalName_idem]

theorem renameVar_map_idem (l : List DataVar) :
    (l.map renameVar).map renameVar = l.map renameVar := by
  rw [List.map_map]
  apply List.map_congr_left
  intro a _
  exact renameVar_idem a

/-- A dataset shaped like the notebook's `ds` (tripolar U236GF field with
`lat`/`lon` coordinates attached), used as a concrete test input. -/
def exampleDataset : LabeledArrayDataset :=
  { dims := [("time", 108), ("sigma", 53), ("y", 385), ("x", 360)]
    vars := [{ name := "U236GF", dims := ["time", "sigma", "y", "x"],
               attrs := [("units", "kg-1")] }]
    coords := [{ name := "lat", dims := ["y", "x"], attrs := [] },
               { name := "lon", dims := ["y", "x"], attrs := [] }] }

/-- The expected standardization of `exampleDataset`. -/
def exampleStandardized : LabeledArrayDataset :=
  { dims := [("time", 108), ("sigma", 53), ("y", 385), ("x", 360)]
    vars := [{ name := "U236GF", dims := ["time", "sigma", "y", "x"],
               attrs := [("units", "kg-1")] }]
    coords := [{ name := "latitude", dims := ["y", "x"],
                 attrs := [("standard_name", "latitude")] },
               { name := "longitude", dims := ["y", "x"],
                 attrs := [("standard_name", "longitude")] }] }

/-- C3: `standardize_variable_names` is idempotent: whenever it succeeds on a
dataset, applying it to the result succeeds again and returns that same
result, so applying it twice yields the same dataset as applying it once. -/
theorem standardize_variable_names_idempotent
    (ds out : LabeledArrayDataset)
    (h : standardize_variable_names ds = .ok out) :
    standardize_variable_names out = .ok out := by
  unfold standardize_variable_names at h ⊢
  split at h
  next hc =>
    injection h with h
    subst h
    simp only [renameVar_map_idem, dims_map_canonical_idem, hc]
    simp
  next hc =>
    exact Except.noConfusion h

/-- Witness for C3 at the concrete notebook-shaped dataset. -/
theorem standardize_variable_names_idempotent_witness :
    standardize_variable_names exampleDataset = .ok exampleStandardized ∧
    standardize_variable_names exampleStandardized = .ok exampleStandardized :=
  ⟨rfl,
   standardize_variable_names_idempotent exampleDataset exampleStandardized rfl⟩

/-! ## DggsRegridder (modelled from the spec)

`regrid_to_dggs` lives in the `data_handling` module, which is not in the
source tree; it is modelled from the specification.  The geometric engine is
abstracted by two functions supplied to the model: `coverage i` gives the
number of corners of target cell `i` with valid overlapping source data, and
`interp` gives the interpolated value the selected method would assign. -/

/-- A regridding method, as a string the caller passes (the notebook passes
`method="bilinear"`). -/
def supportedMethods : List String :=
  ["bilinear", "conservative", "nearest"]

inductive RegridError where
  | InvalidParameterError
deriving DecidableEq, Repr

/-- `n` is a positive power of two. -/
def isPowTwo (n : Nat) : Bool :=
  n != 0 && 2 ^ healpy_grid_level n == n

/-- The DGGS cell set produced by the regridder: the refinement level and one
slot per target cell, `none` marking missing data. -/
structure DggsCellSet where
  level : Nat
  cell_ids : List Nat
  cells : List (Option ℚ)
deriving DecidableEq, Repr

/-- Modelled from the spec: `regrid_to_dggs` validates that `nside` is a
positive power of two and that the method is supported (else
`InvalidParameterError`), computes the level as the floor of `log2 nside`, allocates
`12 * nside ^ 2` target cell slots, and populates slot `i` with the
interpolated value when at least `min_vertices` of its corners have valid
overlapping source data, leaving it unset (`none`) otherwise. -/
def regrid_to_dggs (coverage : Nat → Nat) (interp : Nat → ℚ)
    (nside min_vertices : Nat) (method : String) :
    Except RegridError DggsCellSet :=
  if isPowTwo nside ∧ method ∈ supportedMethods then
    .ok { level := healpy_grid_level nside
          cell_ids := List.range (12 * nside ^ 2)
          cells := (List.range (12 * nside ^ 2)).map
            (fun i => if min_vertices ≤ coverage i then some (interp i) else none) }
  else
    .error .InvalidParameterError

theorem isPowTwo_iff (n : Nat) : isPowTwo n = true ↔ ∃ k, n = 2 ^ k := by
  constructor
  · intro h
    simp only [isPowTwo, Bool.and_eq_true, bne_iff_ne, beq_iff_eq] at h
    exact ⟨healpy_grid_level n, h.2.symm⟩
  · rintro ⟨k, rfl⟩
    have h0 : (2 : Nat) ^ k ≠ 0 := Nat.pos_iff_ne_zero.mp (Nat.pos_pow_of_pos k (by norm_num))
    simp [isPowTwo, healpy_grid_level_pow_two, h0]

/-! ## Claim theorems for the grid parameters, the regridder and squeeze -/

/-- C1: for every `nside` that is a positive power of two, the computed
`healpy_grid_level` is exactly `log2 nside` (the exponent), and
`number_of_cells` is `12 * nside ^ 2`; in particular `nside = 32` gives
level `5` and `12288` cells. -/
theorem healpy_grid_level_and_cell_count :
    (∀ k : Nat, healpy_grid_level (2 ^ k) = k) ∧
    (∀ n : Nat, number_of_cells n = 12 * n ^ 2) ∧
    healpy_grid_level 32 = 5 ∧ number_of_cells 32 = 12288 :=
  ⟨fun k => healpy_grid_level_pow_two k, fun _ => rfl, by decide, by decide⟩

/-- C2: for every source (abstracted by `coverage` and `interp`), every
positive power-of-two `nside` and supported method, `regrid_to_dggs`
produces a cell set with exactly `12 * nside ^ 2` target cell slots, and
every target cell whose coverage fails the `min_vertices` threshold is left
as missing data (`none`), never as zero. -/
theorem regrid_to_dggs_cell_slots
    (coverage : Nat → Nat) (interp : Nat → ℚ) (nside mv : Nat) (method : String)
    (hpow : ∃ k, nside = 2 ^ k) (hm : method ∈ supportedMethods) :
    ∃ out, regrid_to_dggs coverage interp nside mv method = .ok out ∧
      out.cells.length = 12 * nside ^ 2 ∧
      ∀ i, i < 12 * nside ^ 2 → coverage i < mv →
        out.cells.getD i (some 0) = none := by
  have hcond : isPowTwo nside = true ∧ method ∈ supportedMethods :=
    ⟨(isPowTwo_iff nside).mpr hpow, hm⟩
  refine ⟨{ level := healpy_grid_level nside
            cell_ids := List.range (12 * nside ^ 2)
            cells := (List.range (12 * nside ^ 2)).map
              (fun i => if mv ≤ coverage i then some (interp i) else none) },
          ?_, ?_, ?_⟩
  · unfold regrid_to_dggs
    rw [if_pos hcond]
  · simp
  · intro i hi hcov
    have hne : ¬ mv ≤ coverage i := Nat.not_le.mpr hcov
    simp [List.getD_eq_getElem?_getD, List.getElem?_range, hi, hne]

/-- Witness for C2 at `nside = 1`, zero coverage, `method = "bilinear"`. -/
theorem regrid_to_dggs_cell_slots_witness :
    (∃ k, (1 : Nat) = 2 ^ k) ∧ "bilinear" ∈ supportedMethods ∧
    ∃ out, regrid_to_dggs (fun _ => 0) (fun _ => 37) 1 1 "bilinear" = .ok out ∧
      out.cells.length = 12 * 1 ^ 2 ∧
      ∀ i, i < 12 * 1 ^ 2 → (fun _ => 0 : Nat → Nat) i < 1 →
        out.cells.getD i (some 0) = none :=
  ⟨⟨0, rfl⟩, by decide,
   regrid_to_dggs_cell_slots (fun _ => 0) (fun _ => 37) 1 1 "bilinear" ⟨0, rfl⟩ (by decide)⟩

/-- C7: `regrid_to_dggs` fails with `InvalidParameterError` exactly when
`nside` is not a positive power of two or the method is not in the supported
set, and on such inputs no `DggsCellSet` is produced. -/
theorem regrid_to_dggs_invalid_parameter_iff
    (coverage : Nat → Nat) (interp : Nat → ℚ) (nside mv : Nat) (method : String) :
    (regrid_to_dggs coverage interp nside mv method = .error .InvalidParameterError ↔
      ¬((∃ k, nside = 2 ^ k) ∧ method ∈ supportedMethods)) ∧
    (∀ out, regrid_to_dggs coverage interp nside mv method = .error .InvalidParameterError →
      regrid_to_dggs coverage interp nside mv method ≠ .ok out) := by
  constructor
  · by_cases hcond : isPowTwo nside = true ∧ method ∈ supportedMethods
    · have hex : ∃ k, nside = 2 ^ k := (isPowTwo_iff nside).mp hcond.1
      unfold regrid_to_dggs
      rw [if_pos hcond]
      simp [hex, hcond.2]
    · unfold regrid_to_dggs
      rw [if_neg hcond]
      simp only [← isPowTwo_iff]
      exact iff_of_true trivial hcond
  · intro out herr hok
    rw [herr] at hok
    exact Except.noConfusion hok

/-- Witness for C7 at the invalid input `nside = 3`. -/
theorem regrid_to_dggs_invalid_parameter_witness :
    regrid_to_dggs (fun _ => 0) (fun _ => 0) 3 1 "bilinear" =
      .error .InvalidParameterError ∧
    regrid_to_dggs (fun _ => 0) (fun _ => 0) 3 1 "bilinear" ≠
      .ok { level := 0, cell_ids := [], cells := [] } :=
  ⟨rfl,
   (regrid_to_dggs_invalid_parameter_iff (fun _ => 0) (fun _ => 0) 3 1 "bilinear").2
     { level := 0, cell_ids := [], cells := [] } rfl⟩

/-- C9: the notebook applies `squeeze()` to the regridded field before
serialization, so no dimension of size one survives into the dataset written
to the on-disk store, while every non-singleton dimension is kept. -/
theorem squeeze_removes_singleton_dims :
    ∀ regridded_dims : List (String × Nat),
      ((zarr_written_dims regridded_dims).all (fun p => p.2 != 1) = true) ∧
      (∀ p, p ∈ regridded_dims → p.2 ≠ 1 → p ∈ zarr_written_dims regridded_dims) := by
  intro rd
  constructor
  · simp only [zarr_written_dims, ds_regridded_dims, squeeze, List.all_eq_true]
    intro p hp
    exact (List.mem_filter.mp hp).2
  · intro p hp hne
    simp [zarr_written_dims, ds_regridded_dims, squeeze, List.mem_filter, hp, hne]

/-- Witness for C9 at the notebook-shaped dimensions `time`, singleton
`sigma`, and `cells`. -/
theorem squeeze_removes_singleton_dims_witness :
    ("time", 108) ∈ [("time", 108), ("sigma", 1), ("cells", 12288)] ∧
    (108 : Nat) ≠ 1 ∧
    ("time", 108) ∈ zarr_written_dims [("time", 108), ("sigma", 1), ("cells", 12288)] ∧
    (zarr_written_dims [("time", 108), ("sigma", 1), ("cells", 12288)]).all
      (fun p => p.2 != 1) = true :=
  ⟨by decide, by decide,
   (squeeze_removes_singleton_dims _).2 ("time", 108) (by decide) (by decide),
   (squeeze_removes_singleton_dims _).1⟩

/-! ## GridVertexLoader (modelled from the spec)

`load_grid_vertex` lives in the `data_handling` module, which is not in the
source tree; it is modelled from the specification: given a grid-definition
file, it returns the four-array GridVertexSet (`plat`, `plon`, `pclat`,
`pclon` in the notebook), failing with `FileFormatError` when the file is
missing or does not contain the expected fields with consistent shapes. -/

/-- A raw array as stored in a grid-definition file: its shape and its flat
data. -/
structure RawArray where
  shape : List Nat
  data : List ℚ
deriving DecidableEq, Repr

/-- A grid-definition file: named fields. -/
abbrev GridFile := List (String × RawArray)

inductive LoadError where
  | FileFormatError
deriving DecidableEq, Repr

/-- The four arrays returned by `load_grid_vertex`: cell-center latitude and
longitude and cell-corner latitude and longitude. -/
structure GridVertexSet where
  plat : RawArray
  plon : RawArray
  pclat : RawArray
  pclon : RawArray
deriving DecidableEq, Repr

/-- Modelled from the spec: `load_grid_vertex` reads the grid-definition file
(`none` models a missing file), looks up the center and corner fields, and
checks that the centers are 2-D arrays sharing one `(y, x)` shape and the
corners carry one extra vertex dimension of four per cell; any failure is a
`FileFormatError`. -/
def load_grid_vertex (file : Option GridFile) : Except LoadError GridVertexSet :=
  match file with
  | none => .error .FileFormatError
  | some f =>
    match f.lookup "plat", f.lookup "plon", f.lookup "pclat", f.lookup "pclon" with
    | some plat, some plon, some pclat, some pclon =>
      match plat.shape with
      | [y, x] =>
        if plon.shape = [y, x] ∧ pclat.shape = [y, x, 4] ∧ pclon.shape = [y, x, 4] then
          .ok { plat := plat, plon := plon, pclat := pclat, pclon := pclon }
        else .error .FileFormatError
      | _ => .error .FileFormatError
    | _, _, _, _ => .error .FileFormatError

/-- C4: whenever `load_grid_vertex` succeeds, the two center arrays share one
`(y, x)` shape and each corner array's shape is the center shape with one
extra vertex dimension of `4`. -/
theorem load_grid_vertex_shapes (file : Option GridFile) (g : GridVertexSet)
    (h : load_grid_vertex file = .ok g) :
    (∃ y x, g.plat.shape = [y, x] ∧ g.plon.shape = [y, x]) ∧
    g.pclat.shape = g.plat.shape ++ [4] ∧
    g.pclon.shape = g.plat.shape ++ [4] := by
  cases file with
  | none => exact Except.noConfusion h
  | some f =>
    simp only [load_grid_vertex] at h
    split at h
    case _ =>
      split at h
      case _ y x hshape =>
        split at h
        case isTrue hc =>
          injection h with h
          subst h
          exact ⟨⟨y, x, hshape, hc.1⟩, by simp [hshape, hc.2.1], by simp [hshape, hc.2.2]⟩
        case isFalse => exact Except.noConfusion h
      case _ => exact Except.noConfusion h
    case _ => exact Except.noConfusion h

/-- A small concrete grid-definition file with a 2×3 grid. -/
def exampleGridFile : GridFile :=
  [("plat", { shape := [2, 3], data := List.replicate 6 70 }),
   ("plon", { shape := [2, 3], data := List.replicate 6 0 }),
   ("pclat", { shape := [2, 3, 4], data := List.replicate 24 70 }),
   ("pclon", { shape := [2, 3, 4], data := List.replicate 24 0 })]

/-- The vertex set `load_grid_vertex` returns on `exampleGridFile`. -/
def exampleVertexSet : GridVertexSet :=
  { plat := { shape := [2, 3], data := List.replicate 6 70 }
    plon := { shape := [2, 3], data := List.replicate 6 0 }
    pclat := { shape := [2, 3, 4], data := List.replicate 24 70 }
    pclon := { shape := [2, 3, 4], data := List.replicate 24 0 } }

/-- Witness for C4 at the concrete 2×3 grid file. -/
theorem load_grid_vertex_shapes_witness :
    load_grid_vertex (some exampleGridFile) = .ok exampleVertexSet ∧
    ((∃ y x, exampleVertexSet.plat.shape = [y, x] ∧ exampleVertexSet.plon.shape = [y, x]) ∧
      exampleVertexSet.pclat.shape = exampleVertexSet.plat.shape ++ [4] ∧
      exampleVertexSet.pclon.shape = exampleVertexSet.plat.shape ++ [4]) :=
  ⟨rfl, load_grid_vertex_shapes (some exampleGridFile) exampleVertexSet rfl⟩

/-! ## The chunked on-disk array store (modelled from the spec)

The notebook persists the regridded cell set with
`ds_regridded.to_zarr(save_location, mode="w")`; the store is modelled from
the spec as a chunked array store keyed by the DGGS cell index: writing
splits the cell-id and value arrays into chunks, reading concatenates them
back. -/

/-- Split a list into chunks of size `c` (one single chunk when `c = 0`). -/
def chunkList (c : Nat) (l : List α) : List (List α) :=
  match l with
  | [] => []
  | a :: t =>
    if c = 0 then [a :: t]
    else (a :: t).take c :: chunkList c ((a :: t).drop c)
termination_by l.length
decreasing_by
  simp only [List.length_drop, List.length_cons]
  omega

/-- Modelled from the spec: the chunked on-disk array store keyed by DGGS
cell index, holding the refinement level, the chunked cell ids and the
chunked values. -/
structure ZarrStore where
  chunkSize : Nat
  level : Nat
  cellIdChunks : List (List Nat)
  dataChunks : List (List (Option ℚ))
deriving DecidableEq, Repr

/-- Modelled from the spec: `to_zarr` writes a `DggsCellSet` to the chunked
store, splitting the cell-id and value arrays into chunks of the given
size. -/
def to_zarr (c : Nat) (d : DggsCellSet) : ZarrStore :=
  { chunkSize := c
    level := d.level
    cellIdChunks := chunkList c d.cell_ids
    dataChunks := chunkList c d.cells }

/-- Modelled from the spec: reading the store back concatenates the chunks
into one `DggsCellSet`. -/
def open_zarr (s : ZarrStore) : DggsCellSet :=
  { level := s.level
    cell_ids := s.cellIdChunks.flatten
    cells := s.dataChunks.flatten }

theorem chunkList_flatten (c : Nat) (l : List α) : (chunkList c l).flatten = l := by
  generalize hn : l.length = n
  induction n using Nat.strong_induction_on generalizing l with
  | _ n ih =>
    match l with
    | [] => simp [chunkList]
    | a :: t =>
      by_cases hc : c = 0
      · simp [chunkList, hc]
      · have hlt : ((a :: t).drop c).length < n := by
          subst hn
          simp only [List.length_drop, List.length_cons]
          omega
        simp only [chunkList, if_neg hc, List.flatten_cons]
        rw [ih ((a :: t).drop c).length hlt _ rfl]
        exact List.take_append_drop c (a :: t)

/-- C6: the round trip through the chunked on-disk store is the identity:
writing any `DggsCellSet` with `to_zarr` and reading it back yields identical
data values and identical DGGS cell indices. -/
theorem zarr_round_trip : ∀ (c : Nat) (d : DggsCellSet), open_zarr (to_zarr c d) = d := by
  intro c d
  cases d with
  | mk level ids cells => simp [open_zarr, to_zarr, chunkList_flatten]

/-! ## Regridding methods as interpolation weights (modelled from the spec)

The conservative and bilinear regrids compared in notebook cells 20-25 are
produced by external tools; the spec characterizes them by their weights:
conservative regridding is the area-weighted redistribution that preserves
the area-weighted integral (each source cell's area is fully distributed over
the target cells), while bilinear regridding assigns each target cell a
weighted average of the nearest source points.  Exact rational arithmetic
stands in for the floating-point computation, so preservation is exact here
and in particular within any interpolation tolerance. -/

/-- A linear regridding operator: target value `i` is `∑ j, w i j * src j`. -/
def applyWeights {m n : Nat} (w : Fin n → Fin m → ℚ) (src : Fin m → ℚ) :
    Fin n → ℚ :=
  fun i => ∑ j, w i j * src j

/-- The spatial integral of a field: the area-weighted sum of its values. -/
def integral {k : Nat} (areas vals : Fin k → ℚ) : ℚ :=
  ∑ i, areas i * vals i

/-- Modelled from the spec: weights of a conservative regrid between source
cells of areas `sa` and target cells of areas `ta`: each source cell's area
is fully distributed across the target cells. -/
def conservativeWeights {m n : Nat} (sa : Fin m → ℚ) (ta : Fin n → ℚ)
    (w : Fin n → Fin m → ℚ) : Prop :=
  ∀ j, (∑ i, ta i * w i j) = sa j

/-- Modelled from the spec: weights of a bilinear regrid: each target cell
receives a weighted average (a convex combination) of source points. -/
def bilinearWeights {m n : Nat} (w : Fin n → Fin m → ℚ) : Prop :=
  ∀ i, (∑ j, w i j) = 1 ∧ ∀ j, 0 ≤ w i j

/-- C5: a conservative regrid preserves the spatial integral of every source
field (so in particular the sums agree within any interpolation tolerance),
while bilinear weights carry no such guarantee: there is a bilinear regrid
and a field whose source and target integrals differ. -/
theorem conservative_preserves_integral :
    (∀ (m n : Nat) (sa : Fin m → ℚ) (ta : Fin n → ℚ)
        (w : Fin n → Fin m → ℚ) (src : Fin m → ℚ),
      conservativeWeights sa ta w →
        integral ta (applyWeights w src) = integral sa src) ∧
    ¬(∀ (m n : Nat) (sa : Fin m → ℚ) (ta : Fin n → ℚ)
        (w : Fin n → Fin m → ℚ) (src : Fin m → ℚ),
      bilinearWeights w →
        integral ta (applyWeights w src) = integral sa src) := by
  constructor
  · intro m n sa ta w src hc
    unfold integral applyWeights
    calc ∑ i, ta i * ∑ j, w i j * src j
        = ∑ i, ∑ j, ta i * w i j * src j := by
          apply Finset.sum_congr rfl
          intro i _
          rw [Finset.mul_sum]
          apply Finset.sum_congr rfl
          intro j _
          ring
      _ = ∑ j, ∑ i, ta i * w i j * src j := Finset.sum_comm
      _ = ∑ j, (∑ i, ta i * w i j) * src j := by
          apply Finset.sum_congr rfl
          intro j _
          rw [Finset.sum_mul]
      _ = ∑ j, sa j * src j := by
          apply Finset.sum_congr rfl
          intro j _
          rw [hc j]
  · intro hall
    have hb : bilinearWeights (fun _ => ![(1 : ℚ)/2, 1/2] : Fin 1 → Fin 2 → ℚ) := by
      intro i
      constructor
      · simp [Fin.sum_univ_two]
        norm_num
      · intro j
        fin_cases j <;> norm_num
    have := hall 2 1 ![1, 3] ![4] (fun _ => ![(1 : ℚ)/2, 1/2]) ![1, 0] hb
    unfold integral applyWeights at this
    simp [Fin.sum_univ_two, Fin.sum_univ_one] at this
    norm_num at this

/-- Witness for C5 at a one-cell conservative regrid. -/
theorem conservative_preserves_integral_witness :
    conservativeWeights (![2] : Fin 1 → ℚ) ![1] (fun _ _ => 2) ∧
    integral ![1] (applyWeights (fun _ _ => 2) ![5]) = integral ![2] ![5] := by
  have hc : conservativeWeights (![2] : Fin 1 → ℚ) ![1] (fun _ _ => 2) := by
    intro j
    simp [Fin.sum_univ_one]
  exact ⟨hc, conservative_preserves_integral.1 1 1 ![2] ![1] (fun _ _ => 2) ![5] hc⟩

/-! ## Frame properties of the utility calls (modelled from the spec)

The spec states that no shared mutable state is exposed across calls: each
utility takes immutable inputs and returns new outputs.  The driving
session's object heap is modelled explicitly: objects live at numeric
addresses below `next`, and each utility call reads its argument object and
allocates its result as a fresh object, never writing through the argument
reference. -/

inductive HeapObj where
  | dataset (d : LabeledArrayDataset)
  | cellset (c : DggsCellSet)
  | vertexset (g : GridVertexSet)
deriving DecidableEq

/-- The session's object heap: allocated objects at addresses below `next`. -/
structure Heap where
  objects : Nat → Option HeapObj
  next : Nat

/-- Allocate an object at the next fresh address. -/
def allocHeap (h : Heap) (o : HeapObj) : Heap :=
  { objects := fun a => if a = h.next then some o else h.objects a
    next := h.next + 1 }

/-- Modelled from the spec: the call `standardize_variable_names(ds)` of the
driving session: read the dataset at reference `r`, allocate the standardized
dataset as a new object, and return its reference; the argument object is
never written. -/
def standardize_call (h : Heap) (r : Nat) : Heap × Option Nat :=
  match h.objects r with
  | some (.dataset ds) =>
    match standardize_variable_names ds with
    | .ok out => (allocHeap h (.dataset out), some h.next)
    | .error _ => (h, none)
  | _ => (h, none)

/-- Modelled from the spec: the call `regrid_to_dggs(ds, nside, min_vertices,
method)` of the driving session: read the dataset at reference `r`, allocate
the resulting cell set as a new object; the argument object is never
written. -/
def regrid_call (coverage : Nat → Nat) (interp : Nat → ℚ) (h : Heap) (r : Nat)
    (nside mv : Nat) (method : String) : Heap × Option Nat :=
  match h.objects r with
  | some (.dataset _) =>
    match regrid_to_dggs coverage interp nside mv method with
    | .ok out => (allocHeap h (.cellset out), some h.next)
    | .error _ => (h, none)
  | _ => (h, none)

/-- Modelled from the spec: the call `load_grid_vertex(grid_path)` of the
driving session: read the grid file (read-only) and allocate the vertex set
as a new object; no existing object is written. -/
def load_call (h : Heap) (file : Option GridFile) : Heap × Option Nat :=
  match load_grid_vertex file with
  | .ok g => (allocHeap h (.vertexset g), some h.next)
  | .error _ => (h, none)

theorem allocHeap_preserves (h : Heap) (o : HeapObj) (a : Nat) (ha : a < h.next) :
    (allocHeap h o).objects a = h.objects a := by
  simp [allocHeap, Nat.ne_of_lt ha]

/-- C8: none of the three utilities mutates its input: every object allocated
before a `load_grid_vertex`, `standardize_variable_names` or `regrid_to_dggs`
call — in particular the argument dataset — is unchanged in the heap after
the call; each result is a new output object. -/
theorem utilities_no_mutation (h : Heap) (a : Nat) (ha : a < h.next) :
    (∀ r, ((standardize_call h r).1).objects a = h.objects a) ∧
    (∀ coverage interp r nside mv method,
      ((regrid_call coverage interp h r nside mv method).1).objects a = h.objects a) ∧
    (∀ file, ((load_call h file).1).objects a = h.objects a) := by
  refine ⟨fun r => ?_, fun coverage interp r nside mv method => ?_, fun file => ?_⟩
  · unfold standardize_call
    split
    · split
      · exact allocHeap_preserves h _ a ha
      · rfl
    · rfl
  · unfold regrid_call
    split
    · split
      · exact allocHeap_preserves h _ a ha
      · rfl
    · rfl
  · unfold load_call
    split
    · exact allocHeap_preserves h _ a ha
    · rfl

/-- A one-object heap holding the example dataset at address 0. -/
def exampleHeap : Heap :=
  { objects := fun a => if a = 0 then some (.dataset exampleDataset) else none
    next := 1 }

/-- Witness for C8 on the one-object heap: the dataset at address 0 is
untouched by each of the three calls. -/
theorem utilities_no_mutation_witness :
    0 < exampleHeap.next ∧
    ((standardize_call exampleHeap 0).1).objects 0 = exampleHeap.objects 0 ∧
    ((regrid_call (fun _ => 4) (fun _ => 1) exampleHeap 0 32 1 "bilinear").1).objects 0 =
      exampleHeap.objects 0 ∧
    ((load_call exampleHeap (some exampleGridFile)).1).objects 0 = exampleHeap.objects 0 :=
  ⟨Nat.zero_lt_one,
   (utilities_no_mutation exampleHeap 0 Nat.zero_lt_one).1 0,
   (utilities_no_mutation exampleHeap 0 Nat.zero_lt_one).2.1 (fun _ => 4) (fun _ => 1) 0 32 1 "bilinear",
   (utilities_no_mutation exampleHeap 0 Nat.zero_lt_one).2.2 (some exampleGridFile)⟩

/-! ## Determinism of the grid loads (cells 3 and 18)

The notebook loads `grid.nc` twice (`plat, plon, pclat, pclon =
load_grid_vertex(grid_path)` in cells 3 and 18).  The session state between
the two calls differs (cells have run in between), but the loader's result
depends only on the file's content. -/

/-- The notebook session's state at a call site: the file system and the
other mutable session state (how many cells have run). -/
structure SessionState where
  fs : String → Option GridFile
  cellsRun : Nat

/-- A `load_grid_vertex(path)` call inside the session: the result is read
from the file at `path`; running the cell advances the session. -/
def load_grid_vertex_call (s : SessionState) (path : String) :
    Except LoadError GridVertexSet × SessionState :=
  (load_grid_vertex (s.fs path), { s with cellsRun := s.cellsRun + 1 })

/-- C10: `load_grid_vertex` is deterministic: two calls with the same path
against the same file system return identical results — whatever other
session state differs — and the call leaves the file system unchanged, so
the notebook's repeated load of `grid.nc` yields the same four arrays both
times. -/
theorem load_grid_vertex_deterministic (s1 s2 : SessionState) (path : String)
    (hfs : s1.fs = s2.fs) :
    (load_grid_vertex_call s1 path).1 = (load_grid_vertex_call s2 path).1 ∧
    ((load_grid_vertex_call s1 path).2).fs = s1.fs := by
  constructor
  · simp [load_grid_vertex_call, hfs]
  · rfl

/-- The notebook's data directory: `grid.nc` present under the grid path. -/
def exampleFileSystem : String → Option GridFile :=
  fun p => if p = "CS1-nird/data/grid/grid.nc" then some exampleGridFile else none

/-- Witness for C10: cell 3 (no cells run yet) and cell 18 (fifteen cells
later) load the same grid file and get the same result. -/
theorem load_grid_vertex_deterministic_witness :
    (SessionState.mk exampleFileSystem 0).fs = (SessionState.mk exampleFileSystem 15).fs ∧
    (load_grid_vertex_call ⟨exampleFileSystem, 0⟩ "CS1-nird/data/grid/grid.nc").1 =
      (load_grid_vertex_call ⟨exampleFileSystem, 15⟩ "CS1-nird/data/grid/grid.nc").1 ∧
    ((load_grid_vertex_call ⟨exampleFileSystem, 0⟩ "CS1-nird/data/grid/grid.nc").2).fs =
      exampleFileSystem :=
  ⟨rfl,
   (load_grid_vertex_deterministic ⟨exampleFileSystem, 0⟩ ⟨exampleFileSystem, 15⟩
     "CS1-nird/data/grid/grid.nc" rfl).1,
   (load_grid_vertex_deterministic ⟨exampleFileSystem, 0⟩ ⟨exampleFileSystem, 15⟩
     "CS1-nird/data/grid/grid.nc" rfl).2⟩

end Uranium236
